import Mathlib

/-!
Shallow embedding of the real-time WebSocket layer of the mina-backend
repository (`app/services/websocket_service.py` and its caller
`app/routers/websocket.py`), together with proofs settling the frozen
claims about it.

Modelling conventions:
* Python `dict`s (insertion ordered, unique keys) are association lists
  `List (κ × β)`; `pyGet`/`pySet`/`pyDel` mirror subscript read, subscript
  assignment and `del`.
* Python `set`s of ints are duplicate-free `List Int`; `setAdd` mirrors
  `set.add` (no-op when present), removal is `List.filter`.
* A `WebSocket` channel is a `Channel`; `send_text` succeeds iff the
  channel is not `broken` (a broken channel models a closed/failed socket
  whose send raises).  Successful sends are recorded in an append-only
  `outbox` trace of `(recipient, envelope)` pairs.
* `datetime.utcnow()` timestamps and the log statements are environment
  effects carrying no control-flow weight; they are omitted from the
  embedded envelopes and state.
* `uuid.uuid4().hex[:8]` in `create_video_room` is a fresh token read from
  the environment; it is passed as an explicit argument `tok`.
* The only reachable exception in the embedded fragment is the `KeyError`
  of `self.room_connections[room_id]` in `leave_room` (every other dict
  subscript is guarded by an `in` check, and `send_text` failures are
  caught inside `send_personal_message`).  `PyRes` threads the state at
  the moment an exception is raised.
-/

/-- A live duplex channel handle (the FastAPI `WebSocket` object).
`broken` models a channel whose `send_text` raises. -/
structure Channel where
  id : Nat
  broken : Bool
deriving DecidableEq

/-- The per-room metadata dict stored in `ConnectionManager.video_rooms`
(`created_at` / `ended_at` timestamps omitted; `ended_by` is absent,
modelled as `none`, until `end_video_call` sets it). -/
structure RoomData where
  room_id : String
  appointment_id : Int
  participants : List Int
  status : String
  ended_by : Option Int
deriving DecidableEq

/-- The result dicts returned by `VideoCallManager` methods, e.g.
`{"success": False, "error": "Room not found"}` or
`{"success": True, "room_id": room_id}`. -/
structure CallResult where
  success : Bool
  error : Option String
  room_id : Option String
deriving DecidableEq

/-- Outbound envelopes built by the service (dicts with a `type` tag and a
`data` payload); timestamp fields omitted. -/
inductive Envelope where
  | connection_established (user_id : Int)
  | user_joined (room_id : String) (user_id : Int)
  | user_left (room_id : String) (user_id : Int)
  | chat_message (sender_id : Int) (receiver_id : Int) (content : String)
      (message_type : String) (appointment_id : Option Int)
  | message_sent (delivered : Bool) (receiver_id : Int)
  | typing_indicator (sender_id : Int) (is_typing : Bool)
  | video_call_created (room_id : String) (appointment_id : Int) (join_url : String)
  | joined_video_call (room_id : String) (participants : List Int) (room_data : RoomData)
  | video_signal (signal_type : String) (from_user : Int) (signal_data : String)
  | video_call_ended (room_id : String) (ended_by : Int)
  | video_call_join_result (res : CallResult)
  | video_call_end_result (res : CallResult)
  | pong
  | error_msg (message : String)
deriving DecidableEq

/-- `schemas.communication.VideoCallSignal`. -/
structure VideoCallSignal where
  type : String
  room_id : String
  user_id : Int
  data : String
deriving DecidableEq

/-- An inbound message dict as dispatched by `WebSocketService.handle_message`:
one constructor per recognised `type` tag (fields are the `data.get(...)`
reads, with their Python defaults applied by the dispatcher), plus
`unknown` for every other tag. -/
inductive InMsg where
  | chat_message (receiver_id : Int) (content : String)
      (message_type : String) (appointment_id : Option Int)
  | typing (receiver_id : Int) (is_typing : Bool)
  | join_video_call (room_id : String)
  | video_signal (signal_type : String) (room_id : String) (signal_data : String)
  | end_video_call (room_id : String)
  | ping
  | unknown (tag : String)
deriving DecidableEq

/-- The shared mutable state of the service: the three registries of
`ConnectionManager` plus the append-only delivery trace. -/
structure St where
  active_connections : List (Int × Channel)
  room_connections : List (String × List Int)
  video_rooms : List (String × RoomData)
  outbox : List (Int × Envelope)
deriving DecidableEq

/-- Result of a Python call that can raise: `ok a s` is a normal return,
`exn s` is an uncaught exception; both carry the state at that moment. -/
inductive PyRes (α : Type) where
  | ok (a : α) (s : St)
  | exn (s : St)
deriving DecidableEq

/-- Dict subscript read returning `none` when the key is absent. -/
def pyGet {κ β : Type} [DecidableEq κ] : List (κ × β) → κ → Option β
  | [], _ => none
  | (a, b) :: t, k => if a = k then some b else pyGet t k

/-- Dict subscript assignment: replace in place, or append a new entry. -/
def pySet {κ β : Type} [DecidableEq κ] : List (κ × β) → κ → β → List (κ × β)
  | [], k, v => [(k, v)]
  | (a, b) :: t, k, v => if a = k then (k, v) :: t else (a, b) :: pySet t k v

/-- Dict `del` (also covers the guarded `if k in d: del d[k]` pattern,
being a no-op when the key is absent). -/
def pyDel {κ β : Type} [DecidableEq κ] (l : List (κ × β)) (k : κ) : List (κ × β) :=
  l.filter (fun p => !decide (p.1 = k))

/-- Python `set.add`: no-op when the element is already present. -/
def setAdd (l : List Int) (x : Int) : List Int :=
  if x ∈ l then l else l ++ [x]

/-- Whether `u` has a registered channel whose sends succeed. -/
def isLive (s : St) (u : Int) : Bool :=
  match pyGet s.active_connections u with
  | some ch => !ch.broken
  | none => false

/-- `ConnectionManager.disconnect`: drop the user's channel mapping, remove
the user from every room, and delete rooms (and their `video_rooms`
records) emptied by this removal. -/
def disconnect (s : St) (user_id : Int) : St :=
  let ac := s.active_connections.filter (fun p => !decide (p.1 = user_id))
  let rc1 := s.room_connections.map (fun p =>
    (p.1, if user_id ∈ p.2 then p.2.filter (fun y => !decide (y = user_id)) else p.2))
  let rooms_to_remove := (s.room_connections.filter (fun p =>
    decide (user_id ∈ p.2) && decide (p.2.filter (fun y => !decide (y = user_id)) = []))).map Prod.fst
  { s with
    active_connections := ac,
    room_connections := rc1.filter (fun p => !decide (p.1 ∈ rooms_to_remove)),
    video_rooms := s.video_rooms.filter (fun p => !decide (p.1 ∈ rooms_to_remove)) }

/-- `ConnectionManager.send_personal_message`: deliver to the user's
channel if registered; a raising send is caught, treated as a disconnect,
and reported as `false`. -/
def send_personal_message (s : St) (user_id : Int) (msg : Envelope) : Bool × St :=
  match pyGet s.active_connections user_id with
  | some ch =>
      if ch.broken then (false, disconnect s user_id)
      else (true, { s with outbox := s.outbox ++ [(user_id, msg)] })
  | none => (false, s)

/-- The send loop of `send_message_to_room`: deliver `msg` to each user in
turn, collecting those whose send failed. -/
def deliverAll (msg : Envelope) : St → List Int → List Int → St × List Int
  | s, disconnected, [] => (s, disconnected)
  | s, disconnected, u :: rest =>
      match send_personal_message s u msg with
      | (ok, s2) => deliverAll msg s2 (if ok then disconnected else disconnected ++ [u]) rest

/-- The cleanup loop of `send_message_to_room`: discard each failed user
from the room's member set (guarded, since the room may be gone). -/
def pruneAll (room_id : String) : St → List Int → St
  | s, [] => s
  | s, u :: rest =>
      let s2 := match pyGet s.room_connections room_id with
        | some ms =>
            let ms2 := ms.filter (fun y => !decide (y = u))
            { s with room_connections := pySet s.room_connections room_id ms2 }
        | none => s
      pruneAll room_id s2 rest

/-- `users = self.room_connections[room_id].copy(); if exclude_user:
users.discard(exclude_user)` — note the Python truthiness test, which
skips the discard when `exclude_user` is `None` or `0`. -/
def smrUsers (members : List Int) : Option Int → List Int
  | none => members
  | some e => if e = 0 then members else members.filter (fun y => !decide (y = e))

/-- `ConnectionManager.send_message_to_room`. -/
def send_message_to_room (s : St) (room_id : String) (msg : Envelope)
    (exclude_user : Option Int) : St :=
  match pyGet s.room_connections room_id with
  | none => s
  | some members =>
      let r := deliverAll msg s [] (smrUsers members exclude_user)
      pruneAll room_id r.1 r.2

/-- `ConnectionManager.join_room`: ensure the room exists, add the user to
its member set, then broadcast `user_joined` excluding the joiner. -/
def join_room (s : St) (room_id : String) (user_id : Int) : St :=
  let s1 := match pyGet s.room_connections room_id with
    | none => { s with room_connections := pySet s.room_connections room_id [] }
    | some _ => s
  let s2 := match pyGet s1.room_connections room_id with
    | some ms =>
        { s1 with room_connections := pySet s1.room_connections room_id (setAdd ms user_id) }
    | none => s1
  send_message_to_room s2 room_id (.user_joined room_id user_id) (some user_id)

/-- `ConnectionManager.leave_room`: remove the user if present, broadcast
`user_left` to the remainder, then delete the room (and its video record)
when empty.  The unguarded `self.room_connections[room_id]` read after the
broadcast raises `KeyError` when a failed send during the broadcast
disconnected the last remaining member and thereby deleted the room. -/
def leave_room (s : St) (room_id : String) (user_id : Int) : PyRes Unit :=
  match pyGet s.room_connections room_id with
  | some ms =>
      if user_id ∈ ms then
        let ms1 := ms.filter (fun y => !decide (y = user_id))
        let s1 := { s with room_connections := pySet s.room_connections room_id ms1 }
        let s2 := send_message_to_room s1 room_id (.user_left room_id user_id) none
        match pyGet s2.room_connections room_id with
        | some ms2 =>
            if ms2 = [] then
              let s3 := { s2 with room_connections := pyDel s2.room_connections room_id }
              .ok () { s3 with video_rooms := pyDel s3.video_rooms room_id }
            else .ok () s2
        | none => .exn s2
      else .ok () s
  | none => .ok () s

/-- `ConnectionManager.get_room_users`. -/
def get_room_users (s : St) (room_id : String) : List Int :=
  (pyGet s.room_connections room_id).getD []

/-- `VideoCallManager.create_video_room` (`tok` is the fresh
`uuid4().hex[:8]` token drawn from the environment). -/
def create_video_room (s : St) (tok : String) (appointment_id doctor_id patient_id : Int) :
    String × St :=
  let room_id := "video_" ++ toString appointment_id ++ "_" ++ tok
  let room_data : RoomData := ⟨room_id, appointment_id, [doctor_id, patient_id], "waiting", none⟩
  let s1 := { s with video_rooms := pySet s.video_rooms room_id room_data }
  let u := "/video-call/" ++ room_id
  let s2 := (send_personal_message s1 doctor_id (.video_call_created room_id appointment_id u)).2
  let s3 := (send_personal_message s2 patient_id (.video_call_created room_id appointment_id u)).2
  (room_id, s3)

/-- Write back the in-place mutation of the `room_data` dict object: it is
visible through `video_rooms` only while the entry is still present (the
Python code mutates the object it fetched earlier, which the dict may no
longer hold). -/
def pySetIfPresent {β : Type} (l : List (String × β)) (k : String) (v : β) :
    List (String × β) :=
  match pyGet l k with
  | some _ => pySet l k v
  | none => l

/-- `VideoCallManager.join_video_call`: reject unknown rooms and
non-participants, otherwise join the room, set the status to `"active"`
(no check of the current status), and send the joiner the membership
snapshot and room data. -/
def join_video_call (s : St) (room_id : String) (user_id : Int) : CallResult × St :=
  match pyGet s.video_rooms room_id with
  | none => (⟨false, some "Room not found", none⟩, s)
  | some rd =>
      if user_id ∈ rd.participants then
        let s1 := join_room s room_id user_id
        let rd2 := { rd with status := "active" }
        let s2 := { s1 with video_rooms := pySetIfPresent s1.video_rooms room_id rd2 }
        let parts := get_room_users s2 room_id
        let s3 := (send_personal_message s2 user_id (.joined_video_call room_id parts rd2)).2
        (⟨true, none, some room_id⟩, s3)
      else (⟨false, some "Not authorized to join this call", none⟩, s)

/-- `VideoCallManager.handle_video_signal`: relay to every room member
except the sender. -/
def handle_video_signal (s : St) (signal : VideoCallSignal) : CallResult × St :=
  match pyGet s.video_rooms signal.room_id with
  | none => (⟨false, some "Room not found", none⟩, s)
  | some _ =>
      let s1 := send_message_to_room s signal.room_id
        (.video_signal signal.type signal.user_id signal.data) (some signal.user_id)
      (⟨true, none, none⟩, s1)

/-- The `for participant_id in users: await leave_room(...)` loop of
`end_video_call`, propagating any exception. -/
def leaveAll (room_id : String) : St → List Int → PyRes Unit
  | s, [] => .ok () s
  | s, u :: rest =>
      match leave_room s room_id u with
      | .ok _ s2 => leaveAll room_id s2 rest
      | .exn s2 => .exn s2

/-- `VideoCallManager.end_video_call`: if the room is recorded, mark it
ended, broadcast `video_call_ended` to the whole room (no exclusion), then
make every current member leave; always returns `{"success": True}`. -/
def end_video_call (s : St) (room_id : String) (user_id : Int) : PyRes CallResult :=
  match pyGet s.video_rooms room_id with
  | some rd =>
      let rd2 := { rd with status := "ended", ended_by := some user_id }
      let s1 := { s with video_rooms := pySet s.video_rooms room_id rd2 }
      let s2 := send_message_to_room s1 room_id (.video_call_ended room_id user_id) none
      match pyGet s2.room_connections room_id with
      | some ms =>
          match leaveAll room_id s2 ms with
          | .ok _ s3 => .ok ⟨true, none, none⟩ s3
          | .exn s3 => .exn s3
      | none => .ok ⟨true, none, none⟩ s2
  | none => .ok ⟨true, none, none⟩ s

/-- `ChatManager.send_message`: attempt delivery to the receiver, then send
the `message_sent` receipt (with the delivery outcome) to the sender. -/
def ChatManager.send_message (s : St) (sender_id receiver_id : Int) (content : String)
    (message_type : String) (appointment_id : Option Int) : Bool × St :=
  let r1 := send_personal_message s receiver_id
    (.chat_message sender_id receiver_id content message_type appointment_id)
  let r2 := send_personal_message r1.2 sender_id (.message_sent r1.1 receiver_id)
  (r1.1, r2.2)

/-- `ChatManager.typing_indicator`. -/
def typing_indicator (s : St) (sender_id receiver_id : Int) (is_typing : Bool) : St :=
  (send_personal_message s receiver_id (.typing_indicator sender_id is_typing)).2

/-- `WebSocketService.handle_message`: dispatch on the `type` tag; the
surrounding `try`/`except` turns an uncaught exception into a generic
error envelope to the originator; an unrecognised tag only logs. -/
def handle_message (s : St) (user_id : Int) (msg : InMsg) : St :=
  match msg with
  | .chat_message rid c mt appt => (ChatManager.send_message s user_id rid c mt appt).2
  | .typing rid t => typing_indicator s user_id rid t
  | .join_video_call room_id =>
      let r := join_video_call s room_id user_id
      (send_personal_message r.2 user_id (.video_call_join_result r.1)).2
  | .video_signal st rid sd => (handle_video_signal s ⟨st, rid, user_id, sd⟩).2
  | .end_video_call rid =>
      match end_video_call s rid user_id with
      | .ok res s2 => (send_personal_message s2 user_id (.video_call_end_result res)).2
      | .exn s2 => (send_personal_message s2 user_id (.error_msg "Error processing message")).2
  | .ping => (send_personal_message s user_id .pong).2
  | .unknown _ => s

/-- Project the state out of a `PyRes`. -/
def PyRes.state {α : Type} : PyRes α → St
  | .ok _ s => s
  | .exn s => s

/-! ### Association-list and set lemmas -/

theorem pyGet_pySet_self {κ β : Type} [DecidableEq κ] (l : List (κ × β)) (k : κ) (v : β) :
    pyGet (pySet l k v) k = some v := by
  induction l with
  | nil => simp [pySet, pyGet]
  | cons p t ih =>
      obtain ⟨a, b⟩ := p
      by_cases h : a = k
      · simp [pySet, pyGet, h]
      · simp [pySet, pyGet, h, ih]

theorem pyGet_pySet_ne {κ β : Type} [DecidableEq κ] (l : List (κ × β)) (k k' : κ) (v : β)
    (h : k' ≠ k) : pyGet (pySet l k v) k' = pyGet l k' := by
  induction l with
  | nil => simp [pySet, pyGet, Ne.symm h]
  | cons p t ih =>
      obtain ⟨a, b⟩ := p
      by_cases ha : a = k
      · subst ha
        simp [pySet, pyGet, Ne.symm h]
      · simp [pySet, pyGet, ha, ih]

theorem pySet_eq_of_pyGet {κ β : Type} [DecidableEq κ] (l : List (κ × β)) (k : κ) (v : β)
    (h : pyGet l k = some v) : pySet l k v = l := by
  induction l with
  | nil => simp [pyGet] at h
  | cons p t ih =>
      obtain ⟨a, b⟩ := p
      by_cases ha : a = k
      · subst ha
        simp [pyGet] at h
        simp [pySet, h]
      · simp [pyGet, ha] at h
        simp [pySet, ha, ih h]

theorem pyGet_filter_keyfalse {κ β : Type} [DecidableEq κ] (l : List (κ × β))
    (p : κ × β → Bool) (k : κ) (h : ∀ b, p (k, b) = false) :
    pyGet (l.filter p) k = none := by
  induction l with
  | nil => simp [pyGet]
  | cons q t ih =>
      obtain ⟨a, b⟩ := q
      by_cases ha : a = k
      · subst ha
        simp [List.filter, h b, ih]
      · by_cases hp : p (a, b)
        · simp [List.filter, hp, pyGet, ha, ih]
        · simp [List.filter, hp, ih]

theorem pyGet_filter_keytrue {κ β : Type} [DecidableEq κ] (l : List (κ × β))
    (q : κ → Bool) (k : κ) (h : q k = true) :
    pyGet (l.filter (fun p => q p.1)) k = pyGet l k := by
  induction l with
  | nil => simp
  | cons e t ih =>
      obtain ⟨a, b⟩ := e
      by_cases ha : a = k
      · subst ha
        simp [List.filter, h, pyGet]
      · by_cases hq : q a
        · simp [List.filter, hq, pyGet, ha, ih]
        · simp [List.filter, hq, pyGet, ha, ih]

theorem pyGet_pyDel_self {κ β : Type} [DecidableEq κ] (l : List (κ × β)) (k : κ) :
    pyGet (pyDel l k) k = none := by
  apply pyGet_filter_keyfalse
  intro b
  simp

theorem pyGet_pyDel_ne {κ β : Type} [DecidableEq κ] (l : List (κ × β)) (k k' : κ)
    (h : k' ≠ k) : pyGet (pyDel l k) k' = pyGet l k' := by
  have : pyDel l k = l.filter (fun p => !decide (p.1 = k)) := rfl
  rw [this]
  exact pyGet_filter_keytrue l (fun a => !decide (a = k)) k' (by simp [h])

theorem pyDel_pySet {κ β : Type} [DecidableEq κ] (l : List (κ × β)) (k : κ) (v : β) :
    pyDel (pySet l k v) k = pyDel l k := by
  induction l with
  | nil => simp [pySet, pyDel, List.filter]
  | cons p t ih =>
      obtain ⟨a, b⟩ := p
      by_cases ha : a = k
      · subst ha
        simp [pySet, pyDel, List.filter] at ih ⊢
      · simp [pySet, pyDel, List.filter, ha] at ih ⊢
        simp [ih]

theorem mem_of_pyGet {κ β : Type} [DecidableEq κ] (l : List (κ × β)) (k : κ) (v : β)
    (h : pyGet l k = some v) : (k, v) ∈ l := by
  induction l with
  | nil => simp [pyGet] at h
  | cons p t ih =>
      obtain ⟨a, b⟩ := p
      by_cases ha : a = k
      · subst ha
        simp [pyGet] at h
        simp [h]
      · simp [pyGet, ha] at h
        simp [ih h]

/-! ### Lemmas about `send_personal_message` and `disconnect` -/

theorem disconnect_outbox (s : St) (u : Int) : (disconnect s u).outbox = s.outbox := rfl

theorem disconnect_ac_self (s : St) (u : Int) :
    pyGet (disconnect s u).active_connections u = none := by
  apply pyGet_filter_keyfalse
  intro b
  simp

theorem disconnect_ac_other (s : St) (u v : Int) (h : v ≠ u) :
    pyGet (disconnect s u).active_connections v = pyGet s.active_connections v := by
  exact pyGet_filter_keytrue s.active_connections (fun a => !decide (a = u)) v (by simp [h])

theorem isLive_congr (s s' : St) (v : Int)
    (h : s'.active_connections = s.active_connections) : isLive s' v = isLive s v := by
  unfold isLive
  rw [h]

theorem isLive_disconnect_other (s : St) (u v : Int) (h : v ≠ u) :
    isLive (disconnect s u) v = isLive s v := by
  unfold isLive
  rw [disconnect_ac_other s u v h]

theorem spm_not_registered (s : St) (u : Int) (m : Envelope)
    (h : pyGet s.active_connections u = none) :
    send_personal_message s u m = (false, s) := by
  simp [send_personal_message, h]

theorem spm_broken (s : St) (u : Int) (m : Envelope) (ch : Channel)
    (h : pyGet s.active_connections u = some ch) (hb : ch.broken = true) :
    send_personal_message s u m = (false, disconnect s u) := by
  simp [send_personal_message, h, hb]

theorem spm_live (s : St) (u : Int) (m : Envelope)
    (h : isLive s u = true) :
    send_personal_message s u m = (true, { s with outbox := s.outbox ++ [(u, m)] }) := by
  unfold isLive at h
  match hg : pyGet s.active_connections u with
  | none => rw [hg] at h; simp at h
  | some ch =>
      rw [hg] at h
      simp at h
      simp [send_personal_message, hg, h]

theorem spm_outbox (s : St) (u : Int) (m : Envelope) :
    (send_personal_message s u m).2.outbox = s.outbox ∨
    (send_personal_message s u m).2.outbox = s.outbox ++ [(u, m)] := by
  match hg : pyGet s.active_connections u with
  | none => simp [send_personal_message, hg]
  | some ch =>
      by_cases hb : ch.broken
      · left
        simp [send_personal_message, hg, hb, disconnect_outbox]
      · right
        simp [send_personal_message, hg, hb]

theorem spm_preserves_live (s : St) (u v : Int) (m : Envelope)
    (h : isLive s v = true) : isLive (send_personal_message s u m).2 v = true := by
  match hg : pyGet s.active_connections u with
  | none => simpa [send_personal_message, hg] using h
  | some ch =>
      by_cases hb : ch.broken
      · by_cases huv : v = u
        · subst huv
          unfold isLive at h
          rw [hg] at h
          simp at h
          simp [h] at hb
        · rw [spm_broken s u m ch hg hb]
          simpa [isLive_disconnect_other s u v huv] using h
      · rw [show send_personal_message s u m
              = (true, { s with outbox := s.outbox ++ [(u, m)] }) by
            simp [send_personal_message, hg, hb]]
        simpa [isLive_congr _ s v rfl] using h

/-! ### Lemmas about the broadcast loops -/

theorem deliverAll_outbox_shape (msg : Envelope) (us : List Int) :
    ∀ (s : St) (d : List Int), ∃ t,
      (deliverAll msg s d us).1.outbox = s.outbox ++ t ∧
      ∀ x ∈ t, x.1 ∈ us ∧ x.2 = msg := by
  induction us with
  | nil => intro s d; exact ⟨[], by simp [deliverAll], by simp⟩
  | cons u rest ih =>
      intro s d
      rcases hs : send_personal_message s u msg with ⟨ok, s2⟩
      have hred : deliverAll msg s d (u :: rest)
          = deliverAll msg s2 (if ok then d else d ++ [u]) rest := by
        simp [deliverAll, hs]
      rcases ih s2 (if ok then d else d ++ [u]) with ⟨t, ht, hmem⟩
      rcases spm_outbox s u msg with hout | hout <;> rw [hs] at hout
      · refine ⟨t, ?_, ?_⟩
        · rw [hred, ht, hout]
        · intro x hx
          exact ⟨List.mem_cons_of_mem _ (hmem x hx).1, (hmem x hx).2⟩
      · refine ⟨(u, msg) :: t, ?_, ?_⟩
        · rw [hred, ht, hout, List.append_assoc]
          rfl
        · intro x hx
          rcases List.mem_cons.1 hx with hx | hx
          · subst hx; exact ⟨List.mem_cons_self _ _, rfl⟩
          · exact ⟨List.mem_cons_of_mem _ (hmem x hx).1, (hmem x hx).2⟩

theorem deliverAll_outbox_prefix (msg : Envelope) (us : List Int) (s : St) (d : List Int) :
    ∃ t, (deliverAll msg s d us).1.outbox = s.outbox ++ t := by
  rcases deliverAll_outbox_shape msg us s d with ⟨t, ht, _⟩
  exact ⟨t, ht⟩

theorem deliverAll_preserves_live (msg : Envelope) (us : List Int) :
    ∀ (s : St) (d : List Int) (v : Int), isLive s v = true →
      isLive (deliverAll msg s d us).1 v = true := by
  induction us with
  | nil => intro s d v h; simpa [deliverAll] using h
  | cons u rest ih =>
      intro s d v h
      rcases hs : send_personal_message s u msg with ⟨ok, s2⟩
      have hred : deliverAll msg s d (u :: rest)
          = deliverAll msg s2 (if ok then d else d ++ [u]) rest := by
        simp [deliverAll, hs]
      rw [hred]
      apply ih
      have := spm_preserves_live s u v msg h
      rwa [hs] at this

theorem deliverAll_mem (msg : Envelope) (us : List Int) :
    ∀ (s : St) (d : List Int) (v : Int), v ∈ us → isLive s v = true →
      (v, msg) ∈ (deliverAll msg s d us).1.outbox := by
  induction us with
  | nil => intro s d v hv; simp at hv
  | cons u rest ih =>
      intro s d v hv hlive
      rcases hs : send_personal_message s u msg with ⟨ok, s2⟩
      have hred : deliverAll msg s d (u :: rest)
          = deliverAll msg s2 (if ok then d else d ++ [u]) rest := by
        simp [deliverAll, hs]
      rw [hred]
      by_cases huv : v = u
      · subst huv
        have hs' := spm_live s v msg hlive
        rw [hs'] at hs
        have hok : ok = true := by
          have := congrArg Prod.fst hs
          simpa using this.symm
        have hs2 : s2 = { s with outbox := s.outbox ++ [(v, msg)] } := by
          have := congrArg Prod.snd hs
          simpa using this.symm
        rcases deliverAll_outbox_prefix msg rest s2 (if ok then d else d ++ [v]) with ⟨t, ht⟩
        rw [ht, hs2]
        simp
      · have hlive2 : isLive s2 v = true := by
          have := spm_preserves_live s u v msg hlive
          rwa [hs] at this
        exact ih s2 _ v (by rcases List.mem_cons.1 hv with h | h; exact absurd h huv; exact h) hlive2

theorem deliverAll_all_live (msg : Envelope) (us : List Int) :
    ∀ (s : St) (d : List Int), (∀ u ∈ us, isLive s u = true) →
      deliverAll msg s d us
        = ({ s with outbox := s.outbox ++ us.map (fun u => (u, msg)) }, d) := by
  induction us with
  | nil => intro s d _; simp [deliverAll]
  | cons u rest ih =>
      intro s d hall
      have hu := hall u (List.mem_cons_self _ _)
      have hs := spm_live s u msg hu
      have hred : deliverAll msg s d (u :: rest)
          = deliverAll msg { s with outbox := s.outbox ++ [(u, msg)] } d rest := by
        simp [deliverAll, hs]
      rw [hred, ih _ d (fun w hw => by
        have := hall w (List.mem_cons_of_mem _ hw)
        simpa [isLive] using this)]
      simp

theorem pruneAll_nil (rid : String) (s : St) : pruneAll rid s [] = s := rfl

theorem pruneAll_outbox (rid : String) (us : List Int) :
    ∀ s : St, (pruneAll rid s us).outbox = s.outbox := by
  induction us with
  | nil => intro s; rfl
  | cons u rest ih =>
      intro s
      show (pruneAll rid _ rest).outbox = s.outbox
      match hg : pyGet s.room_connections rid with
      | some ms => simp [pruneAll, hg, ih]
      | none => simp [pruneAll, hg, ih]

/-! ### Lemmas about `send_message_to_room` -/

theorem smrUsers_mem (ms : List Int) (e m : Int) (hm : m ∈ ms) (hne : m ≠ e) :
    m ∈ smrUsers ms (some e) := by
  unfold smrUsers
  by_cases h0 : e = 0
  · simp [h0, hm]
  · simp [h0, List.mem_filter, hm, hne]

theorem smrUsers_none (ms : List Int) : smrUsers ms none = ms := rfl

theorem smrUsers_excluded (ms : List Int) (e m : Int) (h0 : e ≠ 0)
    (hm : m ∈ smrUsers ms (some e)) : m ≠ e := by
  unfold smrUsers at hm
  simp [h0, List.mem_filter] at hm
  exact hm.2

theorem smr_no_room (s : St) (rid : String) (msg : Envelope) (ex : Option Int)
    (h : pyGet s.room_connections rid = none) :
    send_message_to_room s rid msg ex = s := by
  simp [send_message_to_room, h]

theorem smr_outbox_shape (s : St) (rid : String) (msg : Envelope) (ex : Option Int)
    (ms : List Int) (h : pyGet s.room_connections rid = some ms) :
    ∃ t, (send_message_to_room s rid msg ex).outbox = s.outbox ++ t ∧
      ∀ x ∈ t, x.1 ∈ smrUsers ms ex ∧ x.2 = msg := by
  rcases deliverAll_outbox_shape msg (smrUsers ms ex) s [] with ⟨t, ht, hmem⟩
  refine ⟨t, ?_, hmem⟩
  simp only [send_message_to_room, h]
  rw [pruneAll_outbox, ht]

theorem smr_delivers (s : St) (rid : String) (msg : Envelope) (ex : Option Int)
    (ms : List Int) (m : Int) (h : pyGet s.room_connections rid = some ms)
    (hm : m ∈ smrUsers ms ex) (hlive : isLive s m = true) :
    (m, msg) ∈ (send_message_to_room s rid msg ex).outbox := by
  simp only [send_message_to_room, h]
  rw [pruneAll_outbox]
  exact deliverAll_mem msg (smrUsers ms ex) s [] m hm hlive

theorem smr_all_live (s : St) (rid : String) (msg : Envelope) (ex : Option Int)
    (ms : List Int) (h : pyGet s.room_connections rid = some ms)
    (hall : ∀ m ∈ smrUsers ms ex, isLive s m = true) :
    send_message_to_room s rid msg ex
      = { s with outbox := s.outbox ++ (smrUsers ms ex).map (fun m => (m, msg)) } := by
  simp only [send_message_to_room, h]
  rw [deliverAll_all_live msg (smrUsers ms ex) s [] hall]
  rfl

/-! ### Lemmas about `leave_room`, `leaveAll` and `end_video_call` -/

theorem filter_ne_of_not_mem (l : List Int) (u : Int) (h : u ∉ l) :
    l.filter (fun y => !decide (y = u)) = l := by
  induction l with
  | nil => rfl
  | cons a t ih =>
      simp at h
      simp [List.filter, h.1, ih h.2, Ne.symm]

theorem leave_room_all_live (s : St) (rid : String) (u : Int) (rest : List Int)
    (h : pyGet s.room_connections rid = some (u :: rest))
    (hnd : (u :: rest).Nodup)
    (hall : ∀ m ∈ rest, isLive s m = true) :
    leave_room s rid u =
      if rest = [] then
        .ok () { s with
          room_connections := pyDel s.room_connections rid,
          video_rooms := pyDel s.video_rooms rid,
          outbox := s.outbox ++ rest.map (fun m => (m, Envelope.user_left rid u)) }
      else
        .ok () { s with
          room_connections := pySet s.room_connections rid rest,
          outbox := s.outbox ++ rest.map (fun m => (m, Envelope.user_left rid u)) } := by
  have hu_notin : u ∉ rest := by
    simp [List.nodup_cons] at hnd
    exact hnd.1
  have hfilter : (u :: rest).filter (fun y => !decide (y = u)) = rest := by
    simp [List.filter, filter_ne_of_not_mem rest u hu_notin]
  have hstep : leave_room s rid u =
      (let s1 := { s with room_connections := pySet s.room_connections rid rest }
       let s2 := send_message_to_room s1 rid (.user_left rid u) none
       match pyGet s2.room_connections rid with
       | some ms2 =>
           if ms2 = [] then
             let s3 := { s2 with room_connections := pyDel s2.room_connections rid }
             PyRes.ok () { s3 with video_rooms := pyDel s3.video_rooms rid }
           else .ok () s2
       | none => .exn s2) := by
    simp only [leave_room, h, hfilter]
    simp
  have h1 : pyGet (pySet s.room_connections rid rest) rid = some rest :=
    pyGet_pySet_self _ _ _
  have hsm := smr_all_live { s with room_connections := pySet s.room_connections rid rest }
    rid (.user_left rid u) none rest h1
    (fun m hm => by
      have := hall m hm
      simpa [isLive] using this)
  rw [smrUsers_none] at hsm
  rw [hstep]
  simp only [hsm, h1]
  by_cases hrest : rest = []
  · subst hrest
    simp [pyDel_pySet]
  · simp [hrest]

theorem leaveAll_spec (rid : String) (todo : List Int) :
    ∀ s : St, pyGet s.room_connections rid = some todo → todo.Nodup →
      (∀ m ∈ todo, isLive s m = true) → todo ≠ [] →
      ∃ t, leaveAll rid s todo = .ok () { s with
          room_connections := pyDel s.room_connections rid,
          video_rooms := pyDel s.video_rooms rid,
          outbox := s.outbox ++ t } ∧
        ∀ x ∈ t, ∃ w, x.2 = Envelope.user_left rid w := by
  induction todo with
  | nil => intro s _ _ _ hne; exact absurd rfl hne
  | cons u rest ih =>
      intro s h hnd hall _
      have hlv := leave_room_all_live s rid u rest h hnd
        (fun m hm => hall m (List.mem_cons_of_mem _ hm))
      by_cases hrest : rest = []
      · subst hrest
        rw [if_pos rfl] at hlv
        refine ⟨[], ?_, by simp⟩
        have : leaveAll rid s [u] = leaveAll rid { s with
            room_connections := pyDel s.room_connections rid,
            video_rooms := pyDel s.video_rooms rid,
            outbox := s.outbox ++ List.map (fun m => (m, Envelope.user_left rid u)) [] } [] := by
          simp only [leaveAll, hlv]
        rw [this]
        simp [leaveAll]
      · rw [if_neg hrest] at hlv
        have hstep : leaveAll rid s (u :: rest) = leaveAll rid { s with
            room_connections := pySet s.room_connections rid rest,
            outbox := s.outbox ++ rest.map (fun m => (m, Envelope.user_left rid u)) } rest := by
          simp only [leaveAll, hlv]
        rcases ih { s with
            room_connections := pySet s.room_connections rid rest,
            outbox := s.outbox ++ rest.map (fun m => (m, Envelope.user_left rid u)) }
          (pyGet_pySet_self _ _ _) (List.Nodup.of_cons hnd)
          (fun m hm => by
            have := hall m (List.mem_cons_of_mem _ hm)
            simpa [isLive] using this) hrest with ⟨t', ht', hmem'⟩
        refine ⟨rest.map (fun m => (m, Envelope.user_left rid u)) ++ t', ?_, ?_⟩
        · rw [hstep, ht']
          simp [pyDel_pySet, List.append_assoc]
        · intro x hx
          rcases List.mem_append.1 hx with hx | hx
          · rcases List.mem_map.1 hx with ⟨m, _, hmx⟩
            exact ⟨u, by rw [← hmx]⟩
          · exact hmem' x hx

theorem end_no_session (s : St) (rid : String) (uid : Int)
    (h : pyGet s.video_rooms rid = none) :
    end_video_call s rid uid = .ok ⟨true, none, none⟩ s := by
  simp [end_video_call, h]

theorem end_video_call_spec (s : St) (rid : String) (uid : Int) (rd : RoomData) (ms : List Int)
    (hvr : pyGet s.video_rooms rid = some rd)
    (hrc : pyGet s.room_connections rid = some ms)
    (hms : ms ≠ []) (hnd : ms.Nodup)
    (hall : ∀ m ∈ ms, isLive s m = true) :
    ∃ t, end_video_call s rid uid = .ok ⟨true, none, none⟩ { s with
        room_connections := pyDel s.room_connections rid,
        video_rooms := pyDel s.video_rooms rid,
        outbox := (s.outbox ++ ms.map (fun m => (m, Envelope.video_call_ended rid uid))) ++ t } ∧
      ∀ x ∈ t, ∃ w, x.2 = Envelope.user_left rid w := by
  have h1 : pyGet ({ s with video_rooms := pySet s.video_rooms rid { rd with status := "ended", ended_by := some uid } } : St).room_connections rid = some ms := hrc
  have hsm := smr_all_live { s with video_rooms := pySet s.video_rooms rid { rd with status := "ended", ended_by := some uid } }
    rid (.video_call_ended rid uid) none ms h1
    (fun m hm => by
      have := hall m hm
      simpa [isLive] using this)
  rw [smrUsers_none] at hsm
  rcases leaveAll_spec rid ms { s with video_rooms := pySet s.video_rooms rid { rd with status := "ended", ended_by := some uid }, outbox := s.outbox ++ ms.map (fun m => (m, Envelope.video_call_ended rid uid)) }
    hrc hnd
    (fun m hm => by
      have := hall m hm
      simpa [isLive] using this) hms with ⟨t, ht, hmem⟩
  refine ⟨t, ?_, hmem⟩
  simp only [end_video_call, hvr, hsm, hrc, ht, pyDel_pySet]

/-! ### Further registry lemmas -/

theorem pySet_pySet {κ β : Type} [DecidableEq κ] (l : List (κ × β)) (k : κ) (v w : β) :
    pySet (pySet l k v) k w = pySet l k w := by
  induction l with
  | nil => simp [pySet]
  | cons p t ih =>
      obtain ⟨a, b⟩ := p
      by_cases ha : a = k
      · subst ha
        simp [pySet]
      · simp [pySet, ha, ih]

theorem pyGet_none_iff {κ β : Type} [DecidableEq κ] (l : List (κ × β)) (k : κ) :
    pyGet l k = none ↔ ∀ p ∈ l, p.1 ≠ k := by
  induction l with
  | nil => simp [pyGet]
  | cons p t ih =>
      obtain ⟨a, b⟩ := p
      by_cases ha : a = k
      · subst ha
        simp [pyGet]
      · simp [pyGet, ha, ih]

theorem disconnect_rc_none (s : St) (u : Int) (rid : String)
    (h : pyGet s.room_connections rid = none) :
    pyGet (disconnect s u).room_connections rid = none := by
  rw [pyGet_none_iff] at h ⊢
  intro p hp
  have hp1 := List.of_mem_filter hp
  have hp2 := List.mem_of_mem_filter hp
  rcases List.mem_map.1 hp2 with ⟨q, hq, hqe⟩
  have : p.1 = q.1 := by rw [← hqe]
  rw [this]
  exact h q hq

theorem disconnect_vr_of_rc_none (s : St) (u : Int) (rid : String)
    (h : pyGet s.room_connections rid = none) :
    pyGet (disconnect s u).video_rooms rid = pyGet s.video_rooms rid := by
  have hnotin : rid ∉ ((s.room_connections.filter (fun p =>
      decide (u ∈ p.2) && decide (p.2.filter (fun y => !decide (y = u)) = []))).map Prod.fst) := by
    intro hmem
    rcases List.mem_map.1 hmem with ⟨q, hq, hqe⟩
    have := (pyGet_none_iff _ _).1 h q (List.mem_of_mem_filter hq)
    exact this hqe
  exact pyGet_filter_keytrue s.video_rooms
    (fun a => !decide (a ∈ ((s.room_connections.filter (fun p =>
      decide (u ∈ p.2) && decide (p.2.filter (fun y => !decide (y = u)) = []))).map Prod.fst)))
    rid (by beta_reduce; rw [decide_eq_false hnotin]; rfl)

theorem spm_vr_entry (s : St) (u : Int) (m : Envelope) (rid : String) (v : RoomData)
    (hvr : pyGet s.video_rooms rid = some v)
    (hrc : pyGet s.room_connections rid = none) :
    pyGet (send_personal_message s u m).2.video_rooms rid = some v ∧
    pyGet (send_personal_message s u m).2.room_connections rid = none := by
  match hg : pyGet s.active_connections u with
  | none => rw [spm_not_registered s u m hg]; exact ⟨hvr, hrc⟩
  | some ch =>
      by_cases hb : ch.broken
      · rw [spm_broken s u m ch hg hb]
        exact ⟨by rw [disconnect_vr_of_rc_none s u rid hrc]; exact hvr,
               disconnect_rc_none s u rid hrc⟩
      · rw [show send_personal_message s u m
              = (true, { s with outbox := s.outbox ++ [(u, m)] }) by
            simp [send_personal_message, hg, hb]]
        exact ⟨hvr, hrc⟩

theorem create_video_room_spec (s : St) (tok : String) (appt A B : Int)
    (hfresh : pyGet s.room_connections ("video_" ++ toString appt ++ "_" ++ tok) = none) :
    (create_video_room s tok appt A B).1 = "video_" ++ toString appt ++ "_" ++ tok ∧
    pyGet (create_video_room s tok appt A B).2.video_rooms
        ("video_" ++ toString appt ++ "_" ++ tok)
      = some ⟨"video_" ++ toString appt ++ "_" ++ tok, appt, [A, B], "waiting", none⟩ ∧
    pyGet (create_video_room s tok appt A B).2.room_connections
        ("video_" ++ toString appt ++ "_" ++ tok) = none := by
  refine ⟨rfl, ?_⟩
  have h1 : pyGet ({ s with video_rooms := pySet s.video_rooms ("video_" ++ toString appt ++ "_" ++ tok) ⟨"video_" ++ toString appt ++ "_" ++ tok, appt, [A, B], "waiting", none⟩ } : St).video_rooms ("video_" ++ toString appt ++ "_" ++ tok) = some ⟨"video_" ++ toString appt ++ "_" ++ tok, appt, [A, B], "waiting", none⟩ :=
    pyGet_pySet_self _ _ _
  have h2 := spm_vr_entry { s with video_rooms := pySet s.video_rooms ("video_" ++ toString appt ++ "_" ++ tok) ⟨"video_" ++ toString appt ++ "_" ++ tok, appt, [A, B], "waiting", none⟩ }
    A (.video_call_created ("video_" ++ toString appt ++ "_" ++ tok) appt ("/video-call/" ++ ("video_" ++ toString appt ++ "_" ++ tok)))
    ("video_" ++ toString appt ++ "_" ++ tok) _ h1 hfresh
  have h3 := spm_vr_entry _ B (.video_call_created ("video_" ++ toString appt ++ "_" ++ tok) appt ("/video-call/" ++ ("video_" ++ toString appt ++ "_" ++ tok)))
    ("video_" ++ toString appt ++ "_" ++ tok) _ h2.1 h2.2
  exact ⟨h3.1, h3.2⟩

theorem count_map_pair (ms : List Int) (env : Envelope) (m : Int) :
    (ms.map (fun x => (x, env))).count (m, env) = ms.count m := by
  induction ms with
  | nil => simp
  | cons a t ih =>
      by_cases ha : a = m
      · subst ha
        simp [List.count_cons, ih]
      · simp [List.count_cons, ha, ih, Prod.ext_iff]

/-! ### Lemmas about `join_video_call` -/

theorem join_not_found (s : St) (rid : String) (u : Int)
    (h : pyGet s.video_rooms rid = none) :
    join_video_call s rid u = (⟨false, some "Room not found", none⟩, s) := by
  simp [join_video_call, h]

theorem join_unauthorized (s : St) (rid : String) (u : Int) (rd : RoomData)
    (h : pyGet s.video_rooms rid = some rd) (hu : u ∉ rd.participants) :
    join_video_call s rid u = (⟨false, some "Not authorized to join this call", none⟩, s) := by
  simp [join_video_call, h, hu]

theorem join_video_call_rejoin (s : St) (rid : String) (u : Int) (rd : RoomData) (ms : List Int)
    (hvr : pyGet s.video_rooms rid = some rd)
    (hp : u ∈ rd.participants)
    (hrc : pyGet s.room_connections rid = some ms)
    (hm : u ∈ ms)
    (hu0 : u ≠ 0)
    (hall : ∀ m ∈ ms, isLive s m = true) :
    join_video_call s rid u = (⟨true, none, some rid⟩, { s with
      video_rooms := pySet s.video_rooms rid { rd with status := "active" },
      outbox := (s.outbox ++ (ms.filter (fun y => !decide (y = u))).map (fun m => (m, Envelope.user_joined rid u))) ++ [(u, Envelope.joined_video_call rid ms { rd with status := "active" })] }) := by
  have hset : setAdd ms u = ms := by simp [setAdd, hm]
  have hpe : pySet s.room_connections rid ms = s.room_connections :=
    pySet_eq_of_pyGet _ _ _ hrc
  have hjr : join_room s rid u
      = send_message_to_room s rid (.user_joined rid u) (some u) := by
    simp only [join_room, hrc, hset, hpe]
  have husers : smrUsers ms (some u) = ms.filter (fun y => !decide (y = u)) := by
    simp [smrUsers, hu0]
  have hsm := smr_all_live s rid (.user_joined rid u) (some u) ms hrc
    (fun m hmem => by
      rw [husers] at hmem
      exact hall m (List.mem_of_mem_filter hmem))
  rw [husers] at hsm
  have hlive_u : isLive ({ s with video_rooms := pySet s.video_rooms rid { rd with status := "active" }, outbox := s.outbox ++ (ms.filter (fun y => !decide (y = u))).map (fun m => (m, Envelope.user_joined rid u)) } : St) u = true := by
    simpa [isLive] using hall u hm
  have hspm := spm_live { s with video_rooms := pySet s.video_rooms rid { rd with status := "active" }, outbox := s.outbox ++ (ms.filter (fun y => !decide (y = u))).map (fun m => (m, Envelope.user_joined rid u)) }
    u (.joined_video_call rid ms { rd with status := "active" }) hlive_u
  simp only [join_video_call, hvr, hp, if_pos, hjr, hsm, pySetIfPresent, get_room_users, hrc,
    Option.getD, hspm]

theorem leave_room_result (s : St) (rid : String) (u : Int) (ms : List Int) (s' : St)
    (h : pyGet s.room_connections rid = some ms) (hu : u ∈ ms)
    (hok : leave_room s rid u = .ok () s') :
    pyGet s'.room_connections rid = none ∨
      ∃ ms', pyGet s'.room_connections rid = some ms' ∧ ms' ≠ [] := by
  simp only [leave_room, h, hu, if_pos] at hok
  obtain ⟨s2, hs2⟩ : ∃ s2, send_message_to_room { s with room_connections := pySet s.room_connections rid (ms.filter (fun y => !decide (y = u))) } rid (.user_left rid u) none = s2 := ⟨_, rfl⟩
  rw [hs2] at hok
  rcases hg : pyGet s2.room_connections rid with _ | ms2
  · rw [hg] at hok
    simp at hok
  · rw [hg] at hok
    by_cases hms2 : ms2 = []
    · subst hms2
      simp at hok
      left
      rw [← hok]
      exact pyGet_pyDel_self _ _
    · simp [hms2] at hok
      right
      exact ⟨ms2, by rw [← hok]; exact hg, hms2⟩

theorem join_room_fresh (s : St) (rid : String) (u : Int) (hu0 : u ≠ 0)
    (h : pyGet s.room_connections rid = none) :
    join_room s rid u = { s with room_connections := pySet s.room_connections rid [u] } := by
  have h1 : pyGet (pySet s.room_connections rid ([] : List Int)) rid = some [] :=
    pyGet_pySet_self _ _ _
  have hadd : setAdd [] u = [u] := by simp [setAdd]
  have h2 : pyGet ({ s with room_connections := pySet s.room_connections rid [u] } : St).room_connections rid = some [u] :=
    pyGet_pySet_self _ _ _
  have husers : smrUsers [u] (some u) = [] := by
    simp [smrUsers, hu0]
  have hsm := smr_all_live { s with room_connections := pySet s.room_connections rid [u] }
    rid (.user_joined rid u) (some u) [u] h2
    (by rw [husers]; intro m hm; simp at hm)
  rw [husers] at hsm
  simp only [join_room, h, h1, hadd, pySet_pySet, hsm]
  simp

/-! ### Concrete states used by counterexamples and witnesses -/

/-- Empty service state. -/
def st0 : St := ⟨[], [], [], []⟩

/-- A session in state `waiting` whose room has no members; both
participants have live channels. -/
def c1_state : St :=
  ⟨[(1, ⟨1, false⟩), (2, ⟨2, false⟩)], [], [("r", ⟨"r", 1, [1, 2], "waiting", none⟩)], []⟩

/-- User `0` is a live member of room `"r"`. -/
def c2_state : St := ⟨[(0, ⟨0, false⟩)], [("r", [0])], [], []⟩

/-- Users 1 and 2 are live members of room `"r"` for a session both are
authorized on. -/
def c2w_state : St :=
  ⟨[(1, ⟨1, false⟩), (2, ⟨2, false⟩)], [("r", [1, 2])], [], []⟩

/-- An active session with both authorized users already joined and live. -/
def c4_state : St :=
  ⟨[(1, ⟨1, false⟩), (2, ⟨2, false⟩)], [("r", [1, 2])], [("r", ⟨"r", 1, [1, 2], "active", none⟩)], []⟩

/-- User 3 is registered and live; no rooms exist. -/
def c5w_state : St := ⟨[(3, ⟨3, false⟩)], [], [], []⟩

/-- An active session with live members 1 and 2 in its room. -/
def c6_state : St :=
  ⟨[(1, ⟨1, false⟩), (2, ⟨2, false⟩)], [("r", [1, 2])], [("r", ⟨"r", 5, [1, 2], "active", none⟩)], []⟩

/-- Users 1 and 2 are live; both are members of room `"r"`. -/
def c7_state : St :=
  ⟨[(1, ⟨1, false⟩), (2, ⟨2, false⟩)], [("r", [1, 2])], [], []⟩

/-- Room `"q"` records the sole member 1, who has no registered channel. -/
def c7w_state : St := ⟨[], [("q", [1])], [("q", ⟨"q", 2, [1, 3], "active", none⟩)], []⟩

/-- User 7 is registered and live; user 9 is not registered. -/
def c9_state : St := ⟨[(7, ⟨7, false⟩)], [], [], []⟩

/-! ### Claim C1 -/

/-- C1 counterexample: ending the `waiting` session of `c1_state` (whose
room has no members) leaves its record with status `"ended"`, and a
subsequent `join_video_call` by the authorized user 2 succeeds and moves
the status back to `"active"` — so an ended session is not absorbing and
the status moves backward, refuting the claim as stated. -/
theorem C1_counterexample :
    (pyGet (end_video_call c1_state "r" 1).state.video_rooms "r").map RoomData.status
        = some "ended" ∧
    (join_video_call (end_video_call c1_state "r" 1).state "r" 2).1.success = true ∧
    (pyGet (join_video_call (end_video_call c1_state "r" 1).state "r" 2).2.video_rooms "r").map
        RoomData.status = some "active" := by
  decide

/-- C1 (amended): the lifecycle moves `waiting → active → ended`, but
`ended` is absorbing only through record deletion: `join_video_call` on a
room with no recorded session fails with `"Room not found"` and changes no
state, and `end_video_call` on a session whose room members all have live
channels deletes the session record (so later operations on it fail as
unknown).  A session record that survives its end (ended while its room
had no members) can be re-joined by an authorized participant, moving the
status back to `"active"`. -/
theorem C1_theorem :
    (∀ (s : St) (rid : String) (u : Int), pyGet s.video_rooms rid = none →
      join_video_call s rid u = (⟨false, some "Room not found", none⟩, s)) ∧
    (∀ (s : St) (rid : String) (uid : Int) (rd : RoomData) (ms : List Int),
      pyGet s.video_rooms rid = some rd → pyGet s.room_connections rid = some ms →
      ms ≠ [] → ms.Nodup → (∀ m ∈ ms, isLive s m = true) →
      pyGet (end_video_call s rid uid).state.video_rooms rid = none) := by
  constructor
  · intro s rid u h
    exact join_not_found s rid u h
  · intro s rid uid rd ms hvr hrc hms hnd hall
    rcases end_video_call_spec s rid uid rd ms hvr hrc hms hnd hall with ⟨t, heq, _⟩
    rw [heq]
    exact pyGet_pyDel_self _ _

/-- C1 witness: both parts of `C1_theorem` hold at concrete inputs. -/
theorem C1_witness :
    join_video_call st0 "r" 1 = (⟨false, some "Room not found", none⟩, st0) ∧
    pyGet (end_video_call c6_state "r" 1).state.video_rooms "r" = none :=
  ⟨C1_theorem.1 st0 "r" 1 rfl,
   C1_theorem.2 c6_state "r" 1 ⟨"r", 5, [1, 2], "active", none⟩ [1, 2]
     rfl rfl (by decide) (by decide) (by decide)⟩

/-! ### Claim C2 -/

/-- C2 counterexample: broadcasting to room `"r"` of `c2_state` with
`exclude_user = 0` still delivers the envelope to user 0 (a live member),
because the Python truthiness test `if exclude_user:` skips the discard
for user id 0 — refuting the claim for `u = 0`. -/
theorem C2_counterexample :
    (0, Envelope.pong) ∈ (send_message_to_room c2_state "r" .pong (some 0)).outbox := by
  decide

/-- C2 (amended): a broadcast with `exclude_user = u` for `u ≠ 0` never
delivers the envelope to `u` (every newly delivered envelope goes to a
recipient other than `u`), and every current member with a live channel
other than the excluded one receives it; the exclusion is ineffective for
`u = 0`, which the falsy check fails to exclude. -/
theorem C2_theorem :
    (∀ (s : St) (rid : String) (msg : Envelope) (e : Int), e ≠ 0 →
      ∀ x ∈ (send_message_to_room s rid msg (some e)).outbox,
        x ∈ s.outbox ∨ (x.1 ≠ e ∧ x.2 = msg)) ∧
    (∀ (s : St) (rid : String) (msg : Envelope) (ex : Option Int) (ms : List Int) (m : Int),
      pyGet s.room_connections rid = some ms → m ∈ ms → (∀ e, ex = some e → m ≠ e) →
      isLive s m = true → (m, msg) ∈ (send_message_to_room s rid msg ex).outbox) := by
  constructor
  · intro s rid msg e he x hx
    match hg : pyGet s.room_connections rid with
    | none =>
        rw [smr_no_room s rid msg (some e) hg] at hx
        exact Or.inl hx
    | some ms =>
        rcases smr_outbox_shape s rid msg (some e) ms hg with ⟨t, ht, hmem⟩
        rw [ht] at hx
        rcases List.mem_append.1 hx with hx | hx
        · exact Or.inl hx
        · exact Or.inr ⟨smrUsers_excluded ms e x.1 he (hmem x hx).1, (hmem x hx).2⟩
  · intro s rid msg ex ms m hg hm hne hlive
    have hmem : m ∈ smrUsers ms ex := by
      cases ex with
      | none => simpa [smrUsers] using hm
      | some e => exact smrUsers_mem ms e m hm (hne e rfl)
    exact smr_delivers s rid msg ex ms m hg hmem hlive

/-- C2 witness: at `c2w_state`, a broadcast excluding user 1 is delivered
to the live member 2. -/
theorem C2_witness :
    (2, Envelope.pong) ∈ (send_message_to_room c2w_state "r" .pong (some 1)).outbox :=
  C2_theorem.2 c2w_state "r" .pong (some 1) [1, 2] 2 rfl (by decide)
    (fun e he => by cases he; decide) (by decide)

/-! ### Claim C3 -/

/-- C3 counterexample: `end_video_call` on a room with no recorded session
returns `{"success": True}` — a success no-op, not a typed error as the
claim states. -/
theorem C3_counterexample :
    end_video_call st0 "missing" 7 = .ok ⟨true, none, none⟩ st0 := by
  decide

/-- C3 (amended): `join_video_call` on an unknown room returns the typed
error `"Room not found"` and `join_video_call` by a non-participant
returns the typed error `"Not authorized to join this call"`, each leaving
the whole state unchanged; `end_video_call` on an unknown room leaves the
state unchanged but returns success (a no-op), not a typed error.  After
`create_video_room(appt, A, B)` (with a fresh room id), a join by any
`C ∉ {A, B}` returns the unauthorized error and the session is still
`waiting` with no state change. -/
theorem C3_theorem :
    (∀ (s : St) (rid : String) (u : Int), pyGet s.video_rooms rid = none →
      join_video_call s rid u = (⟨false, some "Room not found", none⟩, s)) ∧
    (∀ (s : St) (rid : String) (u : Int) (rd : RoomData),
      pyGet s.video_rooms rid = some rd → u ∉ rd.participants →
      join_video_call s rid u = (⟨false, some "Not authorized to join this call", none⟩, s)) ∧
    (∀ (s : St) (rid : String) (u : Int), pyGet s.video_rooms rid = none →
      end_video_call s rid u = .ok ⟨true, none, none⟩ s) ∧
    (∀ (s : St) (tok : String) (appt A B C : Int),
      pyGet s.room_connections ("video_" ++ toString appt ++ "_" ++ tok) = none →
      C ∉ ([A, B] : List Int) →
      join_video_call (create_video_room s tok appt A B).2 (create_video_room s tok appt A B).1 C
        = (⟨false, some "Not authorized to join this call", none⟩,
           (create_video_room s tok appt A B).2) ∧
      (pyGet (create_video_room s tok appt A B).2.video_rooms
          (create_video_room s tok appt A B).1).map RoomData.status = some "waiting") := by
  refine ⟨join_not_found, join_unauthorized, end_no_session, ?_⟩
  intro s tok appt A B C hfresh hC
  rcases create_video_room_spec s tok appt A B hfresh with ⟨h1, h2, _⟩
  rw [h1]
  refine ⟨join_unauthorized _ _ C _ h2 (by simpa using hC), ?_⟩
  rw [h2]
  rfl

/-- C3 witness: both error paths and the create-then-unauthorized-join
scenario hold at concrete inputs. -/
theorem C3_witness :
    end_video_call st0 "nope" 1 = .ok ⟨true, none, none⟩ st0 ∧
    join_video_call (create_video_room st0 "abc" 100 3 5).2
        (create_video_room st0 "abc" 100 3 5).1 4
      = (⟨false, some "Not authorized to join this call", none⟩,
         (create_video_room st0 "abc" 100 3 5).2) ∧
    (pyGet (create_video_room st0 "abc" 100 3 5).2.video_rooms
        (create_video_room st0 "abc" 100 3 5).1).map RoomData.status = some "waiting" :=
  ⟨C3_theorem.2.2.1 st0 "nope" 1 rfl,
   (C3_theorem.2.2.2 st0 "abc" 100 3 5 4 rfl (by decide)).1,
   (C3_theorem.2.2.2 st0 "abc" 100 3 5 4 rfl (by decide)).2⟩

/-! ### Claim C4 -/

/-- C4 counterexample: in `c4_state` user 1 is already a member of the
active session's room; a second `join_video_call` by 1 succeeds and does
not duplicate the membership, but it delivers a fresh `user_joined`
envelope to the other member 2 — re-triggering the "user joined" event
that the claim says is not re-triggered. -/
theorem C4_counterexample :
    (join_video_call c4_state "r" 1).1.success = true ∧
    pyGet (join_video_call c4_state "r" 1).2.room_connections "r" = some [1, 2] ∧
    (2, Envelope.user_joined "r" 1) ∈ (join_video_call c4_state "r" 1).2.outbox := by
  decide

/-- C4 (amended): rejoining by an authorized user `u ≠ 0` who is already a
member (all members live) succeeds, leaves the room membership unchanged
(no duplication), and delivers a fresh membership snapshot to the
rejoiner — but it also re-broadcasts the `user_joined` event to every
other member. -/
theorem C4_theorem :
    ∀ (s : St) (rid : String) (u : Int) (rd : RoomData) (ms : List Int),
      pyGet s.video_rooms rid = some rd → u ∈ rd.participants →
      pyGet s.room_connections rid = some ms → u ∈ ms → u ≠ 0 →
      (∀ m ∈ ms, isLive s m = true) →
      (join_video_call s rid u).1 = ⟨true, none, some rid⟩ ∧
      pyGet (join_video_call s rid u).2.room_connections rid = some ms ∧
      (join_video_call s rid u).2.outbox
        = (s.outbox ++ (ms.filter (fun y => !decide (y = u))).map
            (fun m => (m, Envelope.user_joined rid u)))
          ++ [(u, Envelope.joined_video_call rid ms { rd with status := "active" })] := by
  intro s rid u rd ms hvr hp hrc hm hu0 hall
  have h := join_video_call_rejoin s rid u rd ms hvr hp hrc hm hu0 hall
  rw [h]
  exact ⟨rfl, hrc, rfl⟩

/-- C4 witness: the amended rejoin behaviour at `c4_state`. -/
theorem C4_witness :
    (join_video_call c4_state "r" 1).1 = ⟨true, none, some "r"⟩ ∧
    pyGet (join_video_call c4_state "r" 1).2.room_connections "r" = some [1, 2] ∧
    (join_video_call c4_state "r" 1).2.outbox
      = (c4_state.outbox ++ (([1, 2] : List Int).filter (fun y => !decide (y = 1))).map
          (fun m => (m, Envelope.user_joined "r" 1)))
        ++ [(1, Envelope.joined_video_call "r" [1, 2] ⟨"r", 1, [1, 2], "active", none⟩)] :=
  C4_theorem c4_state "r" 1 ⟨"r", 1, [1, 2], "active", none⟩ [1, 2]
    rfl (by decide) rfl (by decide) (by decide) (by decide)

/-! ### Claim C5 -/

/-- C5 counterexample: starting from the empty state, `join_room` by user
0 (whom the join broadcast fails to exclude and whose own failed send is
pruned) followed by `leave_room` by user 0 leaves room `"r"` recorded with
zero members — refuting garbage collection as claimed. -/
theorem C5_counterexample :
    pyGet (leave_room (join_room st0 "r" 0) "r" 0).state.room_connections "r" = some [] := by
  decide

/-- C5 (amended): `Join(room, u)` immediately followed by `Leave(room, u)`
on a fresh room leaves no entry for the room when `u ≠ 0`, and a
`leave_room` of an actual member never leaves an empty room entry behind;
but broadcast failed-send pruning does not delete a room it empties, and
a join by user 0 with no live channel strands an empty room entry. -/
theorem C5_theorem :
    (∀ (s : St) (rid : String) (u : Int), u ≠ 0 → pyGet s.room_connections rid = none →
      ∃ s', leave_room (join_room s rid u) rid u = .ok () s' ∧
        pyGet s'.room_connections rid = none ∧ pyGet s'.video_rooms rid = none) ∧
    (∀ (s : St) (rid : String) (u : Int) (ms : List Int) (s' : St),
      pyGet s.room_connections rid = some ms → u ∈ ms →
      leave_room s rid u = .ok () s' →
      pyGet s'.room_connections rid = none ∨
        ∃ ms', pyGet s'.room_connections rid = some ms' ∧ ms' ≠ []) := by
  constructor
  · intro s rid u hu0 h
    have hjf := join_room_fresh s rid u hu0 h
    have h2 : pyGet ({ s with room_connections := pySet s.room_connections rid [u] } : St).room_connections rid = some [u] :=
      pyGet_pySet_self _ _ _
    have hlv := leave_room_all_live { s with room_connections := pySet s.room_connections rid [u] }
      rid u [] h2 (by simp) (by simp)
    rw [if_pos rfl] at hlv
    refine ⟨_, by rw [hjf]; exact hlv, ?_, ?_⟩
    · show pyGet (pyDel (pySet s.room_connections rid [u]) rid) rid = none
      rw [pyDel_pySet]
      exact pyGet_pyDel_self _ _
    · exact pyGet_pyDel_self _ _
  · intro s rid u ms s' h hu hok
    exact leave_room_result s rid u ms s' h hu hok

/-- C5 witness: join-then-leave by the live user 3 on a fresh room leaves
no entry for it. -/
theorem C5_witness :
    ∃ s', leave_room (join_room c5w_state "q" 3) "q" 3 = .ok () s' ∧
      pyGet s'.room_connections "q" = none ∧ pyGet s'.video_rooms "q" = none :=
  C5_theorem.1 c5w_state "q" 3 (by decide) rfl

/-! ### Claim C6 -/

/-- C6 (confirmed): ending a recorded session whose room members all have
live channels returns `{"success": True}`; each member receives exactly
one `video_call_ended` envelope, and all of them precede every `user_left`
envelope produced by the subsequent per-member removals; a second
`end_video_call` on the same room is a no-op returning success on the
unchanged state with no further broadcast. -/
theorem C6_theorem :
    ∀ (s : St) (rid : String) (uid uid2 : Int) (rd : RoomData) (ms : List Int),
      pyGet s.video_rooms rid = some rd → pyGet s.room_connections rid = some ms →
      ms ≠ [] → ms.Nodup → (∀ m ∈ ms, isLive s m = true) →
      ∃ s' t,
        end_video_call s rid uid = .ok ⟨true, none, none⟩ s' ∧
        s'.outbox = (s.outbox ++ ms.map (fun m => (m, Envelope.video_call_ended rid uid))) ++ t ∧
        (∀ x ∈ t, ∃ w, x.2 = Envelope.user_left rid w) ∧
        (∀ m ∈ ms, ((ms.map (fun m2 => (m2, Envelope.video_call_ended rid uid))) ++ t).count
            (m, Envelope.video_call_ended rid uid) = 1) ∧
        end_video_call s' rid uid2 = .ok ⟨true, none, none⟩ s' := by
  intro s rid uid uid2 rd ms hvr hrc hms hnd hall
  rcases end_video_call_spec s rid uid rd ms hvr hrc hms hnd hall with ⟨t, heq, hmem⟩
  refine ⟨_, t, heq, rfl, hmem, ?_, ?_⟩
  · intro m hm
    rw [List.count_append]
    have h1 : (ms.map (fun m2 => (m2, Envelope.video_call_ended rid uid))).count
        (m, Envelope.video_call_ended rid uid) = 1 := by
      rw [count_map_pair]
      exact List.count_eq_one_of_mem hnd hm
    have h2 : t.count (m, Envelope.video_call_ended rid uid) = 0 := by
      rw [List.count_eq_zero]
      intro hmm
      rcases hmem _ hmm with ⟨w, hw⟩
      simp at hw
    rw [h1, h2]
  · exact end_no_session _ rid uid2 (pyGet_pyDel_self _ _)

/-- C6 witness: the end-call ordering and idempotence at `c6_state`. -/
theorem C6_witness :
    ∃ s' t,
      end_video_call c6_state "r" 1 = .ok ⟨true, none, none⟩ s' ∧
      s'.outbox = (c6_state.outbox ++ ([1, 2] : List Int).map
          (fun m => (m, Envelope.video_call_ended "r" 1))) ++ t ∧
      (∀ x ∈ t, ∃ w, x.2 = Envelope.user_left "r" w) ∧
      (∀ m ∈ ([1, 2] : List Int),
        ((([1, 2] : List Int).map (fun m2 => (m2, Envelope.video_call_ended "r" 1))) ++ t).count
          (m, Envelope.video_call_ended "r" 1) = 1) ∧
      end_video_call s' "r" 9 = .ok ⟨true, none, none⟩ s' :=
  C6_theorem c6_state "r" 1 9 ⟨"r", 5, [1, 2], "active", none⟩ [1, 2]
    rfl rfl (by decide) (by decide) (by decide)

/-! ### Claim C7 -/

/-- C7 counterexample: disconnecting user 1 from `c7_state` removes 1 from
room `"r"` but delivers nothing at all — the remaining live member 2 does
not receive the `user_left` notification an explicit leave would have
broadcast, refuting the "same effects as a Leave" part of the claim. -/
theorem C7_counterexample :
    (disconnect c7_state 1).outbox = [] ∧
    pyGet (disconnect c7_state 1).room_connections "r" = some [2] := by
  decide

/-- C7 (amended): `disconnect` removes the user's channel registration and
removes the user from every room, deleting any room (and its session
record) this leaves empty — but it broadcasts nothing: the delivery trace
is unchanged, so remaining members get no `user_left` notification. -/
theorem C7_theorem :
    ∀ (s : St) (u : Int),
      (disconnect s u).outbox = s.outbox ∧
      pyGet (disconnect s u).active_connections u = none ∧
      (∀ (r : String) (ms : List Int),
        pyGet (disconnect s u).room_connections r = some ms → u ∉ ms) ∧
      (∀ (r : String) (ms : List Int), pyGet s.room_connections r = some ms → u ∈ ms →
        ms.filter (fun y => !decide (y = u)) = [] →
        pyGet (disconnect s u).room_connections r = none ∧
        pyGet (disconnect s u).video_rooms r = none) := by
  intro s u
  refine ⟨rfl, disconnect_ac_self s u, ?_, ?_⟩
  · intro r ms hg
    have hmem := mem_of_pyGet _ _ _ hg
    have hmem2 := List.mem_of_mem_filter hmem
    rcases List.mem_map.1 hmem2 with ⟨q, hq, he⟩
    have hms : ms = if u ∈ q.2 then q.2.filter (fun y => !decide (y = u)) else q.2 := by
      have := congrArg Prod.snd he
      simpa using this.symm
    by_cases hq2 : u ∈ q.2
    · rw [hms, if_pos hq2]
      intro hcon
      have := List.of_mem_filter hcon
      simp at this
    · rw [hms, if_neg hq2]
      exact hq2
  · intro r ms hg hu hempty
    have hmem := mem_of_pyGet _ _ _ hg
    have hc : (r, ms) ∈ s.room_connections.filter (fun p =>
        decide (u ∈ p.2) && decide (p.2.filter (fun y => !decide (y = u)) = [])) :=
      List.mem_filter.2 ⟨hmem, by simp [hu, hempty]⟩
    have hr : r ∈ (s.room_connections.filter (fun p =>
        decide (u ∈ p.2) && decide (p.2.filter (fun y => !decide (y = u)) = []))).map Prod.fst :=
      List.mem_map.2 ⟨(r, ms), hc, rfl⟩
    constructor
    · apply pyGet_filter_keyfalse
      intro b
      beta_reduce
      rw [decide_eq_true hr]
      rfl
    · apply pyGet_filter_keyfalse
      intro b
      beta_reduce
      rw [decide_eq_true hr]
      rfl

/-- C7 witness: disconnecting the sole member 1 of room `"q"` in
`c7w_state` deletes the room and its session record. -/
theorem C7_witness :
    pyGet (disconnect c7w_state 1).room_connections "q" = none ∧
    pyGet (disconnect c7w_state 1).video_rooms "q" = none :=
  (C7_theorem c7w_state 1).2.2.2 "q" [1] rfl (by decide) (by decide)

/-! ### Claim C8 -/

/-- C8 (confirmed): `send_personal_message` returns `false` without
raising and without any state change when the user has no registered
channel; when the registered channel's send fails it disconnects the user
(removing the registry entry) and returns `false`, and a further send to
the now-unregistered identity again returns `false` — it never returns
`true` for an unregistered or previously-failed identity. -/
theorem C8_theorem :
    ∀ (s : St) (u : Int) (m m2 : Envelope),
      (pyGet s.active_connections u = none → send_personal_message s u m = (false, s)) ∧
      (∀ ch, pyGet s.active_connections u = some ch → ch.broken = true →
        send_personal_message s u m = (false, disconnect s u) ∧
        pyGet (disconnect s u).active_connections u = none ∧
        send_personal_message (disconnect s u) u m2 = (false, disconnect s u)) := by
  intro s u m m2
  constructor
  · exact spm_not_registered s u m
  · intro ch hg hb
    exact ⟨spm_broken s u m ch hg hb, disconnect_ac_self s u,
      spm_not_registered _ u m2 (disconnect_ac_self s u)⟩

/-- C8 witness: a send to the unregistered user 5 of the empty state
returns `false` and changes nothing. -/
theorem C8_witness :
    send_personal_message st0 5 .pong = (false, st0) :=
  (C8_theorem st0 5 .pong .pong).1 rfl

/-! ### Claim C9 -/

/-- C9 (confirmed): for a sender with a live channel, `ChatManager.send_message`
delivers exactly one `message_sent` receipt to the sender, as the final
delivery of the call, with its `delivered` flag equal to the returned
delivery outcome; anything delivered before it went to the receiver only;
in particular, when the receiver has no registered connection the result
is `false`, the sender receives `message_sent` with `delivered = false`,
and the receiver receives nothing. -/
theorem C9_theorem :
    ∀ (s : St) (sender receiver : Int) (content mt : String) (appt : Option Int) (ch : Channel),
      pyGet s.active_connections sender = some ch → ch.broken = false →
      ∃ mid,
        (ChatManager.send_message s sender receiver content mt appt).2.outbox
          = (s.outbox ++ mid) ++ [(sender, Envelope.message_sent
              (ChatManager.send_message s sender receiver content mt appt).1 receiver)] ∧
        (mid = [] ∨ mid = [(receiver, Envelope.chat_message sender receiver content mt appt)]) ∧
        ((ChatManager.send_message s sender receiver content mt appt).1 = true ↔
          mid = [(receiver, Envelope.chat_message sender receiver content mt appt)]) ∧
        (pyGet s.active_connections receiver = none →
          (ChatManager.send_message s sender receiver content mt appt).1 = false ∧
          (ChatManager.send_message s sender receiver content mt appt).2.outbox
            = s.outbox ++ [(sender, Envelope.message_sent false receiver)]) := by
  intro s sender receiver content mt appt ch hg hb
  have hsl : isLive s sender = true := by simp [isLive, hg, hb]
  match hr : pyGet s.active_connections receiver with
  | none =>
      have h1 := spm_not_registered s receiver
        (.chat_message sender receiver content mt appt) hr
      have h2 := spm_live s sender (.message_sent false receiver) hsl
      refine ⟨[], ?_, Or.inl rfl, ?_, ?_⟩
      · simp [ChatManager.send_message, h1, h2]
      · simp [ChatManager.send_message, h1, h2]
      · intro _
        constructor
        · simp [ChatManager.send_message, h1, h2]
        · simp [ChatManager.send_message, h1, h2]
  | some ch2 =>
      by_cases hb2 : ch2.broken
      · by_cases hsr : receiver = sender
        · subst hsr
          rw [hg] at hr
          have : ch = ch2 := by injection hr
          rw [← this] at hb2
          rw [hb] at hb2
          cases hb2
        · have h1 := spm_broken s receiver
            (.chat_message sender receiver content mt appt) ch2 hr hb2
          have hsl2 : isLive (disconnect s receiver) sender = true := by
            rw [isLive_disconnect_other s receiver sender (fun hc => hsr hc.symm)]
            exact hsl
          have h2 := spm_live (disconnect s receiver) sender
            (.message_sent false receiver) hsl2
          refine ⟨[], ?_, Or.inl rfl, ?_, ?_⟩
          · simp [ChatManager.send_message, h1, h2, disconnect_outbox]
          · simp [ChatManager.send_message, h1, h2]
          · intro hcon
            simp at hcon
      · have hrl : isLive s receiver = true := by simp [isLive, hr, hb2]
        have h1 := spm_live s receiver (.chat_message sender receiver content mt appt) hrl
        have hsl2 : isLive ({ s with outbox := s.outbox ++ [(receiver, Envelope.chat_message sender receiver content mt appt)] } : St) sender = true := by
          simpa [isLive] using hsl
        have h2 := spm_live { s with outbox := s.outbox ++ [(receiver, Envelope.chat_message sender receiver content mt appt)] }
          sender (.message_sent true receiver) hsl2
        refine ⟨[(receiver, Envelope.chat_message sender receiver content mt appt)], ?_, Or.inr rfl, ?_, ?_⟩
        · simp [ChatManager.send_message, h1, h2]
        · simp [ChatManager.send_message, h1, h2]
        · intro hcon
          simp at hcon

/-- C9 witness: user 7 (live) sends to the unregistered user 9 — the
receipt comes back with `delivered = false` and user 9 receives nothing. -/
theorem C9_witness :
    ∃ mid,
      (ChatManager.send_message c9_state 7 9 "hi" "text" none).2.outbox
        = (c9_state.outbox ++ mid) ++ [(7, Envelope.message_sent
            (ChatManager.send_message c9_state 7 9 "hi" "text" none).1 9)] ∧
      (mid = [] ∨ mid = [(9, Envelope.chat_message 7 9 "hi" "text" none)]) ∧
      ((ChatManager.send_message c9_state 7 9 "hi" "text" none).1 = true ↔
        mid = [(9, Envelope.chat_message 7 9 "hi" "text" none)]) ∧
      (pyGet c9_state.active_connections 9 = none →
        (ChatManager.send_message c9_state 7 9 "hi" "text" none).1 = false ∧
        (ChatManager.send_message c9_state 7 9 "hi" "text" none).2.outbox
          = c9_state.outbox ++ [(7, Envelope.message_sent false 9)]) :=
  C9_theorem c9_state 7 9 "hi" "text" none ⟨7, false⟩ rfl rfl

/-! ### Claim C10 -/

/-- C10 (confirmed): `handle_message` on an envelope whose type tag is not
one of the recognised tags returns the state unchanged — no outbound
envelope is delivered to anyone (the trace is part of the state) and no
registry or session state changes; the unknown envelope is silently
dropped. -/
theorem C10_theorem :
    ∀ (s : St) (u : Int) (tag : String), handle_message s u (.unknown tag) = s :=
  fun _ _ _ => rfl
